import Mathlib

/-!
Shallow embedding of the `conversions` core of the diabot repository
(`src/conversions/glucose.rs` and `src/conversions/a1c.rs`), together with
theorems checking the specification's claims about it.

Modelling conventions:
- Rust `f32` values are modelled as exact rationals (`ℚ`); decimal literals
  such as `18.015588` denote the exact decimal value.
- Rust `i32` is modelled as `Int` (no overflow occurs at the magnitudes the
  parser admits, `|v| ≤ 9999`).
- Rust `String`/`&str` is modelled as `List Char` (`Str` below).
- Fallible Rust functions returning `Result` are modelled with `Except`.
- Methods taking `&mut self` are modelled by explicit state passing: they
  return the Rust result paired with the post-state of `self`.
-/

abbrev Str : Type := List Char

/-! ## Glucose values (`glucose.rs`, lines 5-51) -/

def MGDL_PER_MMOL : ℚ := 18.015588

def MIN_BG_VALUE : ℚ := -9999.0

def MAX_BG_VALUE : ℚ := 9999.0

/-- Rust `f32::round` rounds to the nearest integer, ties away from zero. -/
def roundHalfAway (q : ℚ) : Int :=
  if 0 ≤ q then ⌊q + 1/2⌋ else ⌈q - 1/2⌉

/-- A glucose value and its unit of measurement (`Glucose` enum). -/
inductive Glucose where
  | MgDl : Int → Glucose
  | Mmol : ℚ → Glucose
deriving DecidableEq, Repr

/-- Converts the value to mg/dL; already-mg/dL values are returned unchanged
(`Glucose::to_mgdl`, lines 19-24). The Rust `(val * MGDL_PER_MMOL).round() as i32`
is the rounded product. -/
def Glucose.to_mgdl : Glucose → Glucose
  | .MgDl n => .MgDl n
  | .Mmol v => .MgDl (roundHalfAway (v * MGDL_PER_MMOL))

/-- Converts the value to mmol/L; already-mmol/L values are returned unchanged
(`Glucose::to_mmol`, lines 28-33). -/
def Glucose.to_mmol : Glucose → Glucose
  | .MgDl n => .Mmol ((n : ℚ) / MGDL_PER_MMOL)
  | .Mmol v => .Mmol v

/-- Convert into the opposite unit, dispatching on the current tag
(`Glucose::convert`, lines 36-41). -/
def Glucose.convert : Glucose → Glucose
  | .MgDl n => (Glucose.MgDl n).to_mmol
  | .Mmol v => (Glucose.Mmol v).to_mgdl

/-! ## Parsing (`glucose.rs`, lines 53-182) -/

/-- Errors from parsing a glucose string (`ParseGlucoseError`). -/
inductive ParseGlucoseError where
  | EmptyInput : ParseGlucoseError
  | InvalidNumber : Str → ParseGlucoseError
  | OutOfRange : Str → ParseGlucoseError
  | UnknownUnit : Str → ParseGlucoseError
deriving DecidableEq, Repr

/-- Result of parsing a glucose string (`ParsedGlucoseResult`). The
`Ambiguous` payload fields are, in order: `original`, `as_mmol`, `as_mgdl`. -/
inductive ParsedGlucoseResult where
  | Known : Glucose → ParsedGlucoseResult
  | Ambiguous : Str → Glucose → Glucose → ParsedGlucoseResult
deriving DecidableEq, Repr

/-- Rust `str::trim`: remove leading and trailing whitespace. -/
def trimList (s : Str) : Str :=
  ((s.dropWhile Char.isWhitespace).reverse.dropWhile Char.isWhitespace).reverse

/-- Rust `str::to_lowercase`, restricted to the ASCII fragment relevant here
(`Char.toLower` lowercases `A`-`Z` and leaves every other character alone). -/
def lowerStr (s : Str) : Str :=
  s.map Char.toLower

def digitVal (c : Char) : Nat := c.toNat - '0'.toNat

def natOfDigits (l : Str) : Nat := l.foldl (fun acc c => acc * 10 + digitVal c) 0

/-- Sign handling of the Rust `f32::from_str` model: an optional leading
`-` (accepted) or `+` (accepted, non-negative) before the magnitude. -/
def parseSign (s : Str) : Bool × Str :=
  match s with
  | c :: r => if c = '-' then (true, r) else if c = '+' then (false, r) else (false, s)
  | [] => (false, [])

/-- Magnitude handling of the Rust `f32::from_str` model: `Digits ('.' Digits?)?`
or `'.' Digits`, with the decimal value taken exactly. -/
def parseMagnitude (rest : Str) : Option ℚ :=
  let intPart := rest.takeWhile Char.isDigit
  let rest2 := rest.dropWhile Char.isDigit
  match rest2 with
  | [] =>
    if intPart.isEmpty then none
    else some (natOfDigits intPart : ℚ)
  | c :: fracRest =>
    if c = '.' then
      let fracPart := fracRest.takeWhile Char.isDigit
      let rest3 := fracRest.dropWhile Char.isDigit
      if rest3.isEmpty then
        if intPart.isEmpty && fracPart.isEmpty then none
        else
          some ((natOfDigits intPart : ℚ) + (natOfDigits fracPart : ℚ) / (10 ^ fracPart.length : ℚ))
      else none
    else none

/-- Model of Rust `f32::from_str` on the inputs this parser can produce.
The numeric prefix handed to it consists only of ASCII digits, `.` and `-`
(the split in `parse_glucose_input` guarantees this), so the exponent, `inf`
and `nan` forms of the full `f32` grammar are unreachable and are not
modelled; every string of digits, dots and signs is accepted or rejected
exactly as Rust does (`Sign? (Digits ('.' Digits?)? | '.' Digits)`). -/
def parseDecimal (s : Str) : Option ℚ :=
  let sr := parseSign s
  match parseMagnitude sr.2 with
  | none => none
  | some m => some (cond sr.1 (-m) m)

/-- Parses a blood glucose value and its unit from string input, returning a
`(number, unit)` pair (`parse_glucose_input`, lines 144-182). The unit in the
result is always lowercased; an explicit `unit` parameter takes precedence
over a unit embedded in the string. -/
def parse_glucose_input (value : Str) (unit : Option Str) :
    Except ParseGlucoseError (ℚ × Option Str) :=
  let value := (trimList value).map (fun c => if c = ',' then '.' else c)
  if value.isEmpty then .error .EmptyInput
  else
    let split_pos := value.findIdx (fun c => !(c.isDigit || c == '.' || c == '-'))
    if split_pos = 0 then .error (.InvalidNumber value)
    else
      let num_part := trimList (value.take split_pos)
      let unit_part := trimList (value.drop split_pos)
      match parseDecimal num_part with
      | none => .error (.InvalidNumber num_part)
      | some num =>
        let final_unit : Option Str :=
          match unit with
          | some u => some (lowerStr (trimList u))
          | none => if unit_part.isEmpty then none else some (lowerStr unit_part)
        .ok (num, final_unit)

/-- The unit-resolution tail of `ParsedGlucoseResult::parse` (lines 91-117):
round the number, then either guess the unit from the ambiguity band (no unit
text) or match the lowercased unit text against the known aliases. -/
def ParsedGlucoseResult.classify (s : Str) (num : ℚ) (parsed_unit : Option Str) :
    Except ParseGlucoseError ParsedGlucoseResult :=
  let num_int := roundHalfAway num
  match parsed_unit with
  | none | some [] =>
    if 25.0 ≤ num ∧ num ≤ 50.0 then
      .ok (.Ambiguous (trimList s) (.Mmol num) (.MgDl num_int))
    else if num < 25.0 then
      .ok (.Known (.Mmol num))
    else
      .ok (.Known (.MgDl num_int))
  | some u =>
    let lu := lowerStr u
    if lu = "mmol".data ∨ lu = "mmol/l".data then
      .ok (.Known (.Mmol num))
    else if lu = "mg".data ∨ lu = "mg/dl".data ∨ lu = "mgdl".data then
      .ok (.Known (.MgDl num_int))
    else
      .error (.UnknownUnit u)

/-- Parses a glucose value with an optional unit (`ParsedGlucoseResult::parse`,
lines 86-118): split the input, validate the closed range
`[MIN_BG_VALUE, MAX_BG_VALUE]` (violations carry the original input string),
then resolve the unit. -/
def ParsedGlucoseResult.parse (s : Str) (unit : Option Str) :
    Except ParseGlucoseError ParsedGlucoseResult :=
  match parse_glucose_input s unit with
  | .error e => .error e
  | .ok (num, parsed_unit) =>
    if ¬(MIN_BG_VALUE ≤ num ∧ num ≤ MAX_BG_VALUE) then
      .error (.OutOfRange s)
    else
      ParsedGlucoseResult.classify s num parsed_unit

/-- The `FromStr` convenience entry point (lines 121-127). -/
def ParsedGlucoseResult.from_str (s : Str) : Except ParseGlucoseError ParsedGlucoseResult :=
  ParsedGlucoseResult.parse s none

/-! ## A1c estimation (`a1c.rs`) -/

/-- Errors from A1c estimation (`EstimationError`); the payloads are the
target scale and the scale(s) that could have supplied it. -/
inductive EstimationError where
  | MissingInputValue : String → String → EstimationError
deriving DecidableEq, Repr

/-- Scratch record of up to four optional measurements (`A1cEstimation`). -/
structure A1cEstimation where
  glucose : Option Glucose
  ifcc : Option ℚ
  dcct : Option ℚ
  fructosamine : Option ℚ
deriving DecidableEq, Repr

/-- Modelled from the spec: `Glucose::as_mgdl_value` is called by `a1c.rs`
but is not defined anywhere under the sources. Per the spec a glucose reading
is "converted to its mg/dL numeric magnitude first", i.e. `to_mgdl` (which
rounds a mmol/L value) followed by extracting the integer count; the
repository's own test (`test_glucose_mmol_to_dcct`, "without intermediate
rounding this would be 5.142") confirms the intermediate rounding. -/
def Glucose.as_mgdl_value : Glucose → Int
  | .MgDl n => n
  | .Mmol v => roundHalfAway (v * MGDL_PER_MMOL)

/-- Computes and caches the DCCT value (`A1cEstimation::calculate_dcct`,
lines 20-38). The first pair component is the Rust return value
(`Ok(*self)` or the error), the second is the post-state of `self`. -/
def A1cEstimation.calculate_dcct (a : A1cEstimation) :
    Except EstimationError A1cEstimation × A1cEstimation :=
  match a.dcct with
  | some _ => (.ok a, a)
  | none =>
    match a.glucose with
    | some g =>
      let a2 := { a with dcct := some (((g.as_mgdl_value : ℚ) + 46.7) / 28.7) }
      (.ok a2, a2)
    | none =>
      match a.ifcc with
      | some i =>
        let a2 := { a with dcct := some (i / 10.929 + 2.15) }
        (.ok a2, a2)
      | none => (.error (.MissingInputValue "dcct" "glucose, ifcc"), a)

/-- Accessor for the DCCT scale (`A1cEstimation::as_dcct_value`, lines 40-46).
The `Option.getD 0` models the Rust `.unwrap()`; it is unreachable because
`calculate_dcct` always populates `dcct` on success. -/
def A1cEstimation.as_dcct_value (a : A1cEstimation) :
    Except EstimationError ℚ × A1cEstimation :=
  match a.dcct with
  | some v => (.ok v, a)
  | none =>
    match a.calculate_dcct with
    | (.ok r, a2) => (.ok (r.dcct.getD 0), a2)
    | (.error e, a2) => (.error e, a2)

/-- Computes and caches the IFCC value (`A1cEstimation::calculate_ifcc`,
lines 48-65). In the glucose branch Rust calls
`self.calculate_dcct().unwrap()`, which also caches `dcct`; the error case of
that inner call is modelled as propagation and is unreachable because
`glucose` is present. -/
def A1cEstimation.calculate_ifcc (a : A1cEstimation) :
    Except EstimationError A1cEstimation × A1cEstimation :=
  match a.ifcc with
  | some _ => (.ok a, a)
  | none =>
    match a.dcct with
    | some d =>
      let a2 := { a with ifcc := some ((d - 2.15) * 10.929) }
      (.ok a2, a2)
    | none =>
      match a.glucose with
      | some _ =>
        match a.calculate_dcct with
        | (.ok r, a2) =>
          let a3 := { a2 with ifcc := some ((r.dcct.getD 0 - 2.15) * 10.929) }
          (.ok a3, a3)
        | (.error e, a2) => (.error e, a2)
      | none => (.error (.MissingInputValue "ifcc" "glucose, dcct"), a)

/-- Accessor for the IFCC scale (`A1cEstimation::as_ifcc_value`, lines 67-73). -/
def A1cEstimation.as_ifcc_value (a : A1cEstimation) :
    Except EstimationError ℚ × A1cEstimation :=
  match a.ifcc with
  | some v => (.ok v, a)
  | none =>
    match a.calculate_ifcc with
    | (.ok r, a2) => (.ok (r.ifcc.getD 0), a2)
    | (.error e, a2) => (.error e, a2)

/-- Computes and caches the fructosamine value
(`A1cEstimation::calculate_fructosamine`, lines 77-91); the glucose branch
uses `self.calculate_dcct()?` (error propagation), which also caches `dcct`. -/
def A1cEstimation.calculate_fructosamine (a : A1cEstimation) :
    Except EstimationError A1cEstimation × A1cEstimation :=
  match a.fructosamine with
  | some _ => (.ok a, a)
  | none =>
    match a.dcct with
    | some d =>
      let a2 := { a with fructosamine := some ((d - 1.61) * 58.82) }
      (.ok a2, a2)
    | none =>
      match a.glucose with
      | some _ =>
        match a.calculate_dcct with
        | (.ok r, a2) =>
          let a3 := { a2 with fructosamine := some ((r.dcct.getD 0 - 1.61) * 58.82) }
          (.ok a3, a3)
        | (.error e, a2) => (.error e, a2)
      | none => (.error (.MissingInputValue "fructosamine" "dcct, glucose"), a)

/-- Accessor for the fructosamine scale
(`A1cEstimation::as_fructosamine_value`, lines 93-99). -/
def A1cEstimation.as_fructosamine_value (a : A1cEstimation) :
    Except EstimationError ℚ × A1cEstimation :=
  match a.fructosamine with
  | some v => (.ok v, a)
  | none =>
    match a.calculate_fructosamine with
    | (.ok r, a2) => (.ok (r.fructosamine.getD 0), a2)
    | (.error e, a2) => (.error e, a2)

/-! ## Helper lemmas -/

theorem char_toNat_ofNat (n : Nat) (h : n.isValidChar) : (Char.ofNat n).toNat = n := by
  rw [Char.ofNat, dif_pos h]
  rfl

theorem toLower_idem (c : Char) : c.toLower.toLower = c.toLower := by
  by_cases h : c.toNat ≥ 65 ∧ c.toNat ≤ 90
  · have h1 : c.toLower = Char.ofNat (c.toNat + 32) := by
      simp only [Char.toLower]
      rw [if_pos h]
    have hv : (c.toNat + 32).isValidChar := Or.inl (by omega)
    have ht : (Char.ofNat (c.toNat + 32)).toNat = c.toNat + 32 := char_toNat_ofNat _ hv
    rw [h1]
    simp only [Char.toLower]
    rw [ht, if_neg (by rintro ⟨_, h2⟩ ; omega)]
  · have h1 : c.toLower = c := by
      simp only [Char.toLower]
      rw [if_neg h]
    rw [h1, h1]

theorem lowerStr_idem (l : Str) : lowerStr (lowerStr l) = lowerStr l := by
  simp only [lowerStr, List.map_map]
  exact List.map_congr_left fun c _ => toLower_idem c

/-- Every unit text returned by `parse_glucose_input` is already lowercased. -/
theorem parse_glucose_input_unit_lowered (s : Str) (unit : Option Str) (v : ℚ) (u : Str)
    (hp : parse_glucose_input s unit = .ok (v, some u)) : lowerStr u = u := by
  cases unit with
  | some u0 =>
    simp only [parse_glucose_input] at hp
    split at hp
    · exact absurd hp (by simp)
    · split at hp
      · exact absurd hp (by simp)
      · split at hp
        · exact absurd hp (by simp)
        · simp only [Except.ok.injEq, Prod.mk.injEq, Option.some.injEq] at hp
          rw [← hp.2, lowerStr_idem]
  | none =>
    simp only [parse_glucose_input] at hp
    split at hp
    · exact absurd hp (by simp)
    · split at hp
      · exact absurd hp (by simp)
      · split at hp
        · exact absurd hp (by simp)
        · split at hp
          · exact absurd hp (by simp)
          · simp only [Except.ok.injEq, Prod.mk.injEq, Option.some.injEq] at hp
            rw [← hp.2, lowerStr_idem]

/-- When the extracted value is in range, `parse` proceeds to unit resolution. -/
theorem parse_in_range (s : Str) (unit : Option Str) (v : ℚ) (u : Option Str)
    (hp : parse_glucose_input s unit = .ok (v, u))
    (hlo : MIN_BG_VALUE ≤ v) (hhi : v ≤ MAX_BG_VALUE) :
    ParsedGlucoseResult.parse s unit = ParsedGlucoseResult.classify s v u := by
  unfold ParsedGlucoseResult.parse
  simp only [hp]
  rw [if_neg (not_not_intro ⟨hlo, hhi⟩)]

/-- Unfolding of `classify` when no unit text was resolved. -/
theorem classify_no_unit (s : Str) (q : ℚ) :
    ParsedGlucoseResult.classify s q none =
      (if 25.0 ≤ q ∧ q ≤ 50.0 then
        .ok (.Ambiguous (trimList s) (.Mmol q) (.MgDl (roundHalfAway q)))
      else if q < 25.0 then
        .ok (.Known (.Mmol q))
      else
        .ok (.Known (.MgDl (roundHalfAway q)))) := rfl

/-- Evaluation rule for `roundHalfAway` on non-negative arguments. -/
theorem roundHalfAway_nonneg_eq (q : ℚ) (n : Int) (h0 : 0 ≤ q)
    (h1 : (n : ℚ) ≤ q + 1/2) (h2 : q + 1/2 < n + 1) : roundHalfAway q = n := by
  unfold roundHalfAway
  rw [if_pos h0]
  exact Int.floor_eq_iff.mpr ⟨by exact_mod_cast h1, by linarith⟩

theorem takeWhile_digit_count_dot (l : Str) : (l.takeWhile Char.isDigit).count '.' = 0 := by
  rw [List.count_eq_zero]
  intro hmem
  have := List.mem_takeWhile_imp hmem
  exact absurd this (by decide)

/-- A magnitude accepted by the `f32` grammar contains at most one dot. -/
theorem parseMagnitude_dots_le_one (rest : Str) (q : ℚ) (h : parseMagnitude rest = some q) :
    rest.count '.' ≤ 1 := by
  have hsplit : rest.count '.' =
      (rest.takeWhile Char.isDigit).count '.' + (rest.dropWhile Char.isDigit).count '.' := by
    conv_lhs => rw [← List.takeWhile_append_dropWhile (p := Char.isDigit) (l := rest)]
    exact List.count_append _ _ _
  simp only [parseMagnitude] at h
  split at h
  · rename_i heq
    rw [hsplit, takeWhile_digit_count_dot, heq]
    simp
  · rename_i c fracRest heq
    split at h
    · rename_i hc
      subst hc
      split at h
      · rename_i h3
        rw [List.isEmpty_iff] at h3
        have hfc : fracRest.count '.' =
            (fracRest.takeWhile Char.isDigit).count '.'
              + (fracRest.dropWhile Char.isDigit).count '.' := by
          conv_lhs => rw [← List.takeWhile_append_dropWhile (p := Char.isDigit) (l := fracRest)]
          exact List.count_append _ _ _
        rw [hsplit, takeWhile_digit_count_dot, heq, List.count_cons, hfc,
          takeWhile_digit_count_dot, h3]
        simp
      · exact absurd h (by simp)
    · exact absurd h (by simp)

theorem parseSign_snd_count (s : Str) : ((parseSign s).2).count '.' = s.count '.' := by
  cases s with
  | nil => rfl
  | cons c r =>
    simp only [parseSign]
    by_cases h1 : c = '-'
    · rw [if_pos h1]
      subst h1
      simp [List.count_cons]
    · rw [if_neg h1]
      by_cases h2 : c = '+'
      · rw [if_pos h2]
        subst h2
        simp [List.count_cons]
      · rw [if_neg h2]

/-! ## Claims -/

/-- C1: for every parse whose extracted number passes range validation and
resolves no unit text (neither embedded nor supplied as the explicit
parameter), the result is `Ambiguous` with the trimmed original string,
`Mmol v` and `MgDl (round v)` when `v ∈ [25.0, 50.0]`; `Known (Mmol v)` when
`v < 25.0`; and `Known (MgDl (round v))` when `v > 50.0`. -/
theorem C1_no_unit_ambiguity_band (s : Str) (unit : Option Str) (v : ℚ) (u : Option Str)
    (hp : parse_glucose_input s unit = .ok (v, u))
    (hu : u = none ∨ u = some [])
    (hlo : (-9999.0 : ℚ) ≤ v) (hhi : v ≤ 9999.0) :
    ((25.0 ≤ v ∧ v ≤ 50.0) →
      ParsedGlucoseResult.parse s unit =
        .ok (.Ambiguous (trimList s) (.Mmol v) (.MgDl (roundHalfAway v)))) ∧
    (v < 25.0 → ParsedGlucoseResult.parse s unit = .ok (.Known (.Mmol v))) ∧
    (50.0 < v → ParsedGlucoseResult.parse s unit = .ok (.Known (.MgDl (roundHalfAway v)))) := by
  have hparse : ParsedGlucoseResult.parse s unit = ParsedGlucoseResult.classify s v u :=
    parse_in_range s unit v u hp hlo hhi
  have hguess : ParsedGlucoseResult.classify s v u =
      (if 25.0 ≤ v ∧ v ≤ 50.0 then
        .ok (.Ambiguous (trimList s) (.Mmol v) (.MgDl (roundHalfAway v)))
      else if v < 25.0 then
        .ok (.Known (.Mmol v))
      else
        .ok (.Known (.MgDl (roundHalfAway v)))) := by
    rcases hu with rfl | rfl <;> rfl
  refine ⟨fun hband => ?_, fun hlt => ?_, fun hgt => ?_⟩
  · rw [hparse, hguess, if_pos hband]
  · rw [hparse, hguess, if_neg (by rintro ⟨h1, -⟩ ; linarith), if_pos hlt]
  · have h2550 : (25.0 : ℚ) ≤ 50.0 := by norm_num
    rw [hparse, hguess, if_neg (by rintro ⟨-, h2⟩ ; linarith),
      if_neg (by push_neg ; linarith)]

theorem C1_no_unit_ambiguity_band_witness :
    ParsedGlucoseResult.parse "30".data none
      = .ok (.Ambiguous "30".data (.Mmol 30) (.MgDl 30)) := by
  have hp : parse_glucose_input "30".data none = .ok ((30 : ℚ), none) := rfl
  have h := (C1_no_unit_ambiguity_band "30".data none 30 none hp (Or.inl rfl)
    (by norm_num) (by norm_num)).1 ⟨by norm_num, by norm_num⟩
  rw [h, show trimList "30".data = "30".data from rfl,
    roundHalfAway_nonneg_eq 30 30 (by norm_num) (by norm_num) (by norm_num)]

/-- C2: the unit conversions equal their reference definitions with constant
`MGDL_PER_MMOL = 18.015588`: `to_mmol (MgDl n) = Mmol (n / 18.015588)`,
`to_mgdl (Mmol v) = MgDl (round (v * 18.015588))` stored as an integer,
converting a value already in its own unit is the identity, and `convert`
dispatches to the opposite unit based on the current tag. -/
theorem C2_conversion_reference :
    (∀ n : Int, (Glucose.MgDl n).to_mmol = Glucose.Mmol ((n : ℚ) / 18.015588)) ∧
    (∀ v : ℚ, (Glucose.Mmol v).to_mgdl = Glucose.MgDl (roundHalfAway (v * 18.015588))) ∧
    (∀ n : Int, (Glucose.MgDl n).to_mgdl = Glucose.MgDl n) ∧
    (∀ v : ℚ, (Glucose.Mmol v).to_mmol = Glucose.Mmol v) ∧
    (∀ n : Int, (Glucose.MgDl n).convert = (Glucose.MgDl n).to_mmol) ∧
    (∀ v : ℚ, (Glucose.Mmol v).convert = (Glucose.Mmol v).to_mgdl) :=
  ⟨fun _ => rfl, fun _ => rfl, fun _ => rfl, fun _ => rfl, fun _ => rfl, fun _ => rfl⟩

/-- C3: A1c derivation routes through DCCT as pivot with
`dcct = (mgdl + 46.7) / 28.7` and `ifcc = (dcct - 2.15) * 10.929`: from a
record with only `dcct = 6.7`, `as_ifcc_value` returns approximately 49.727;
from a record with only `glucose = MgDl 100`, it returns approximately
32.366, computing DCCT first and IFCC from it. -/
theorem C3_ifcc_via_dcct_pivot :
    (∃ q1 r1, (A1cEstimation.mk none none (some 6.7) none).as_ifcc_value = (.ok q1, r1) ∧
      |q1 - 49.727| < 1/1000) ∧
    (∃ q2 r2, (A1cEstimation.mk (some (Glucose.MgDl 100)) none none none).as_ifcc_value
        = (.ok q2, r2) ∧
      |q2 - 32.366| < 1/1000 ∧
      r2.dcct = some (((100 : ℚ) + 46.7) / 28.7) ∧
      q2 = (((100 : ℚ) + 46.7) / 28.7 - 2.15) * 10.929) := by
  constructor
  · exact ⟨_, _, rfl, by rw [abs_lt] ; constructor <;> norm_num⟩
  · refine ⟨_, _, rfl, by rw [abs_lt] ; constructor <;> norm_num [Glucose.as_mgdl_value], ?_, ?_⟩
    · show some ((((100 : Int) : ℚ) + 46.7) / 28.7) = _
      norm_num
    · show ((((100 : Int) : ℚ) + 46.7) / 28.7 - 2.15) * 10.929 = _
      norm_num

/-- C4 counterexample: a record holding only a fructosamine value does not
let `as_dcct_value` succeed; it fails with the missing-input error naming
`glucose, ifcc`, so fructosamine is not a pivot input of this code. -/
theorem C4_counterexample :
    (A1cEstimation.mk none none none (some 100)).as_dcct_value
      = (.error (.MissingInputValue "dcct" "glucose, ifcc"),
         A1cEstimation.mk none none none (some 100)) := rfl

/-- C4 (amended): fructosamine is not usable as a pivot input (the code
implements the one-way lineage): for every record in which only the
fructosamine field is populated, `as_dcct_value` fails with
`MissingInputValue ("dcct", "glucose, ifcc")` and leaves the record
unchanged. -/
theorem C4_amended_no_fructosamine_pivot (f : ℚ) :
    (A1cEstimation.mk none none none (some f)).as_dcct_value
      = (.error (.MissingInputValue "dcct" "glucose, ifcc"),
         A1cEstimation.mk none none none (some f)) := rfl

/-- C5: on the record with all four fields absent every scale accessor fails
with `MissingInputValue` naming the target scale and the scales that could
have supplied it, and the record is left unchanged. -/
theorem C5_missing_input_errors :
    (A1cEstimation.mk none none none none).as_dcct_value
      = (.error (.MissingInputValue "dcct" "glucose, ifcc"),
         A1cEstimation.mk none none none none) ∧
    (A1cEstimation.mk none none none none).as_ifcc_value
      = (.error (.MissingInputValue "ifcc" "glucose, dcct"),
         A1cEstimation.mk none none none none) ∧
    (A1cEstimation.mk none none none none).as_fructosamine_value
      = (.error (.MissingInputValue "fructosamine" "dcct, glucose"),
         A1cEstimation.mk none none none none) :=
  ⟨rfl, rfl, rfl⟩

/-- C6: memoized reads: whenever the field for a scale is already populated
with `x`, the accessor for that scale returns `Ok x` without error and
leaves the whole record unchanged, regardless of the other fields. -/
theorem C6_memo_reads (a : A1cEstimation) :
    (∀ x, a.dcct = some x → a.as_dcct_value = (.ok x, a)) ∧
    (∀ x, a.ifcc = some x → a.as_ifcc_value = (.ok x, a)) ∧
    (∀ x, a.fructosamine = some x → a.as_fructosamine_value = (.ok x, a)) := by
  refine ⟨fun x h => ?_, fun x h => ?_, fun x h => ?_⟩
  · simp [A1cEstimation.as_dcct_value, h]
  · simp [A1cEstimation.as_ifcc_value, h]
  · simp [A1cEstimation.as_fructosamine_value, h]

theorem C6_memo_reads_witness :
    (A1cEstimation.mk (some (Glucose.MgDl 100)) (some 2) (some 3) (some 4)).as_dcct_value
        = (.ok 3, A1cEstimation.mk (some (Glucose.MgDl 100)) (some 2) (some 3) (some 4)) ∧
    (A1cEstimation.mk none (some 2) none none).as_ifcc_value
        = (.ok 2, A1cEstimation.mk none (some 2) none none) ∧
    (A1cEstimation.mk none none none (some 4)).as_fructosamine_value
        = (.ok 4, A1cEstimation.mk none none none (some 4)) :=
  ⟨(C6_memo_reads _).1 3 rfl, (C6_memo_reads _).2.1 2 rfl, (C6_memo_reads _).2.2 4 rfl⟩

/-- C7: frame property: each accessor modifies at most its own target field
plus, when DCCT must be computed as the pivot, the `dcct` field; `glucose`
is never modified, `as_ifcc_value` never modifies `fructosamine`, and
`as_fructosamine_value` never modifies `ifcc`. -/
theorem C7_frame_effect (a : A1cEstimation) :
    (a.as_dcct_value.2.glucose = a.glucose ∧ a.as_dcct_value.2.ifcc = a.ifcc ∧
      a.as_dcct_value.2.fructosamine = a.fructosamine) ∧
    (a.as_ifcc_value.2.glucose = a.glucose ∧ a.as_ifcc_value.2.fructosamine = a.fructosamine) ∧
    (a.as_fructosamine_value.2.glucose = a.glucose ∧ a.as_fructosamine_value.2.ifcc = a.ifcc) := by
  obtain ⟨g, i, d, f⟩ := a
  cases g <;> cases i <;> cases d <;> cases f <;>
    exact ⟨⟨rfl, rfl, rfl⟩, ⟨rfl, rfl⟩, ⟨rfl, rfl⟩⟩

/-- C8: range validation: when the extracted value is below -9999 or above
9999, `parse` returns `OutOfRange` carrying the original unnormalized,
untrimmed input string; for every value in the closed interval
`[-9999, 9999]`, endpoints included, the check passes and parsing proceeds
to unit resolution. -/
theorem C8_range_validation (s : Str) (unit : Option Str) (v : ℚ) (u : Option Str)
    (hp : parse_glucose_input s unit = .ok (v, u)) :
    ((v < -9999.0 ∨ 9999.0 < v) →
        ParsedGlucoseResult.parse s unit = .error (.OutOfRange s)) ∧
    ((-9999.0 : ℚ) ≤ v → v ≤ 9999.0 →
        ParsedGlucoseResult.parse s unit = ParsedGlucoseResult.classify s v u) := by
  constructor
  · intro h
    unfold ParsedGlucoseResult.parse
    simp only [hp]
    rw [if_pos]
    rintro ⟨h1, h2⟩
    rcases h with h | h
    · exact absurd h1 (not_le.2 h)
    · exact absurd h2 (not_le.2 h)
  · intro hlo hhi
    exact parse_in_range s unit v u hp hlo hhi

theorem C8_range_validation_witness :
    ParsedGlucoseResult.parse "10000".data none = .error (.OutOfRange "10000".data) := by
  have hp : parse_glucose_input "10000".data none = .ok ((10000 : ℚ), none) := rfl
  exact (C8_range_validation "10000".data none 10000 none hp).1 (Or.inr (by norm_num))

/-- C9: unit resolution is case-insensitive and alias-tolerant: for every
in-range parse with resolved unit text, a text lowercasing to `mmol` or
`mmol/l` yields `Known (Mmol v)`, one lowercasing to `mg`, `mg/dl` or `mgdl`
yields `Known (MgDl (round v))`, and any other non-empty unit text yields
`UnknownUnit` carrying the lowercased unit text. -/
theorem C9_unit_aliases (s : Str) (unit : Option Str) (v : ℚ) (u : Str)
    (hp : parse_glucose_input s unit = .ok (v, some u))
    (hne : u ≠ [])
    (hlo : (-9999.0 : ℚ) ≤ v) (hhi : v ≤ 9999.0) :
    ((lowerStr u = "mmol".data ∨ lowerStr u = "mmol/l".data) →
        ParsedGlucoseResult.parse s unit = .ok (.Known (.Mmol v))) ∧
    ((lowerStr u = "mg".data ∨ lowerStr u = "mg/dl".data ∨ lowerStr u = "mgdl".data) →
        ParsedGlucoseResult.parse s unit = .ok (.Known (.MgDl (roundHalfAway v)))) ∧
    (¬(lowerStr u = "mmol".data ∨ lowerStr u = "mmol/l".data) →
      ¬(lowerStr u = "mg".data ∨ lowerStr u = "mg/dl".data ∨ lowerStr u = "mgdl".data) →
        ParsedGlucoseResult.parse s unit = .error (.UnknownUnit u) ∧ lowerStr u = u) := by
  have hparse : ParsedGlucoseResult.parse s unit = ParsedGlucoseResult.classify s v (some u) :=
    parse_in_range s unit v (some u) hp hlo hhi
  obtain ⟨c, cs, rfl⟩ : ∃ c cs, u = c :: cs := by
    cases u with
    | nil => exact absurd rfl hne
    | cons c cs => exact ⟨c, cs, rfl⟩
  have hclas : ParsedGlucoseResult.classify s v (some (c :: cs)) =
      (if lowerStr (c :: cs) = "mmol".data ∨ lowerStr (c :: cs) = "mmol/l".data then
        .ok (.Known (.Mmol v))
      else if lowerStr (c :: cs) = "mg".data ∨ lowerStr (c :: cs) = "mg/dl".data ∨
          lowerStr (c :: cs) = "mgdl".data then
        .ok (.Known (.MgDl (roundHalfAway v)))
      else
        .error (.UnknownUnit (c :: cs))) := rfl
  refine ⟨fun hmm => ?_, fun hmg => ?_, fun hn1 hn2 => ?_⟩
  · rw [hparse, hclas, if_pos hmm]
  · have hn : ¬(lowerStr (c :: cs) = "mmol".data ∨ lowerStr (c :: cs) = "mmol/l".data) := by
      rcases hmg with h | h | h <;> rw [h] <;> decide
    rw [hparse, hclas, if_neg hn, if_pos hmg]
  · refine ⟨?_, parse_glucose_input_unit_lowered s unit v _ hp⟩
    rw [hparse, hclas, if_neg hn1, if_neg hn2]

theorem C9_unit_aliases_witness :
    ParsedGlucoseResult.parse "5.5 MMOL".data none = .ok (.Known (.Mmol 5.5)) := by
  have hp : parse_glucose_input "5.5 MMOL".data none
      = .ok ((5 : ℚ) + (5 : ℚ) / (10 ^ 1 : ℚ), some "mmol".data) := rfl
  have h := (C9_unit_aliases "5.5 MMOL".data none ((5 : ℚ) + (5 : ℚ) / (10 ^ 1 : ℚ))
    "mmol".data hp (by decide) (by norm_num) (by norm_num)).1 (Or.inl rfl)
  rw [h]
  norm_num

/-- C10: commas are replaced by decimal points before number extraction, so
comma is never a thousands separator: `parse "1,000"` returns
`Known (Mmol 1.0)` (the value one, below the 25.0 band), `parse "1,000,000"`
fails with `InvalidNumber`, and in general any numeric prefix the number
parser accepts contains at most one dot (two or more dots or commas are
rejected). -/
theorem C10_comma_decimal_normalization :
    ParsedGlucoseResult.parse "1,000".data none = .ok (.Known (.Mmol 1.0)) ∧
    ParsedGlucoseResult.parse "1,000,000".data none
      = .error (.InvalidNumber "1.000.000".data) ∧
    (∀ (np : Str) (q : ℚ), parseDecimal np = some q → np.count '.' ≤ 1) := by
  refine ⟨?_, rfl, ?_⟩
  · have hp : parse_glucose_input "1,000".data none
        = .ok ((1 : ℚ) + (0 : ℚ) / (10 ^ 3 : ℚ), none) := rfl
    rw [parse_in_range _ _ _ _ hp (by norm_num [MIN_BG_VALUE]) (by norm_num [MAX_BG_VALUE]),
      classify_no_unit, if_neg (by norm_num), if_pos (by norm_num)]
    norm_num
  · intro np q h
    simp only [parseDecimal] at h
    rw [← parseSign_snd_count np]
    split at h
    · exact absurd h (by simp)
    · rename_i m heq
      exact parseMagnitude_dots_le_one _ _ heq

theorem C10_comma_decimal_normalization_witness :
    parseDecimal "1.2".data = some (((1 : Nat) : ℚ) + ((2 : Nat) : ℚ) / (10 ^ 1 : ℚ)) ∧
    ("1.2".data).count '.' ≤ 1 :=
  ⟨rfl, C10_comma_decimal_normalization.2.2 "1.2".data _ rfl⟩
